import Mathlib

/-!
Verification of the BRC-104 cross-language test core: handshake nonce
assembly (Base64 decode-then-concatenate), key-identifier construction,
and the BRC-42/43-style key-derivation scheme.

The byte-level definitions (`base64ToBytes`, `buggyBase64ToBytes`,
`correctSignatureDataPrep`, `makeKeyId`, the nonce constants) are embedded
from `constants.ts` / `constants.go` / `test_brc104_signatures.ts`.
The key-derivation core (`buildInvoiceNumber`, `deriveBranchScalar`,
`derivePrivateKey`, `derivePublicKey`) is not shipped in this repository
(only its tests and a bug report quoting it are); it is modelled from the
specification, over the cyclic group of prime order `n` generated by the
curve generator `G`, with points represented by their discrete logarithms.
-/

namespace BRC104

/-! ## Base64 decoding (embedding of Buffer.from(s, 'base64') / Peer.base64ToBytes) -/

/-- Value of one character of the standard Base64 alphabet, `none` for a
character outside the alphabet. -/
def base64CharValue (c : Char) : Option Nat :=
  if 'A' ≤ c ∧ c ≤ 'Z' then some (c.toNat - 65)
  else if 'a' ≤ c ∧ c ≤ 'z' then some (c.toNat - 97 + 26)
  else if '0' ≤ c ∧ c ≤ '9' then some (c.toNat - 48 + 52)
  else if c = '+' then some 62
  else if c = '/' then some 63
  else none

/-- Decode a list of 6-bit sextet values into bytes: each full group of
four sextets yields three bytes, a trailing group of three sextets yields
two bytes, a trailing group of two yields one byte, a lone trailing sextet
yields nothing (Node.js Buffer semantics). -/
def decodeB64Sextets : List Nat → List Nat
  | a :: b :: c :: d :: rest =>
      (a * 4 + b / 16) :: ((b % 16) * 16 + c / 4) :: ((c % 4) * 64 + d)
        :: decodeB64Sextets rest
  | [a, b, c] => [a * 4 + b / 16, (b % 16) * 16 + c / 4]
  | [_a, b] => [_a * 4 + b / 16]
  | _ => []

/-- Embedding of Node.js `Buffer.from(s, 'base64')` (the decoder behind
`Peer.base64ToBytes` and the test helpers): decoding stops at the first
padding character `=`, characters outside the alphabet are skipped, and
the remaining sextets are packed into bytes. -/
def base64ToBytes (s : String) : List Nat :=
  decodeB64Sextets ((s.data.takeWhile (fun c => c ≠ '=')).filterMap base64CharValue)

/-- Embedding of `buggyBase64ToBytes` from `test_brc104_signatures.ts`:
the historical buggy path decodes one (possibly concatenated) transport
string as a single value. -/
def buggyBase64ToBytes (data : String) : List Nat :=
  base64ToBytes data

/-- Embedding of `correctSignatureDataPrep` from
`test_brc104_signatures.ts`: decode each nonce string separately, then
concatenate the decoded byte arrays. -/
def correctSignatureDataPrep (nonce1 nonce2 : String) : List Nat :=
  base64ToBytes nonce1 ++ base64ToBytes nonce2

/-! ## Shared constants (embedding of constants.ts / constants.go) -/

/-- Embedding of `INITIAL_NONCE_B64` from `constants.ts`. -/
def INITIAL_NONCE_B64 : String := "QUFBQUFBQUFBQUFBQUFBQUFBQUFBQUFBQUFBQUFBQUE="

/-- Embedding of `SESSION_NONCE_B64` from `constants.ts`. -/
def SESSION_NONCE_B64 : String := "QkJCQkJCQkJCQkJCQkJCQkJCQkJCQkJCQkJCQkJCQkI="

/-- Embedding of `INITIAL_NONCE_BYTES` from `constants.ts`. -/
def INITIAL_NONCE_BYTES : List Nat :=
  [65,65,65,65,65,65,65,65,65,65,65,65,65,65,65,65,
   65,65,65,65,65,65,65,65,65,65,65,65,65,65,65,65]

/-- Embedding of `SESSION_NONCE_BYTES` from `constants.ts`. -/
def SESSION_NONCE_BYTES : List Nat :=
  [66,66,66,66,66,66,66,66,66,66,66,66,66,66,66,66,
   66,66,66,66,66,66,66,66,66,66,66,66,66,66,66,66]

/-- Embedding of `EXPECTED_SIG_DATA_SIGNING` from `constants.ts`. -/
def EXPECTED_SIG_DATA_SIGNING : List Nat :=
  [65,65,65,65,65,65,65,65,65,65,65,65,65,65,65,65,
   65,65,65,65,65,65,65,65,65,65,65,65,65,65,65,65,
   66,66,66,66,66,66,66,66,66,66,66,66,66,66,66,66,
   66,66,66,66,66,66,66,66,66,66,66,66,66,66,66,66]

/-- Embedding of `EXPECTED_SIG_DATA_VERIFICATION` from `constants.ts`. -/
def EXPECTED_SIG_DATA_VERIFICATION : List Nat :=
  [66,66,66,66,66,66,66,66,66,66,66,66,66,66,66,66,
   66,66,66,66,66,66,66,66,66,66,66,66,66,66,66,66,
   65,65,65,65,65,65,65,65,65,65,65,65,65,65,65,65,
   65,65,65,65,65,65,65,65,65,65,65,65,65,65,65,65]

/-- Embedding of `makeKeyId` from `constants.ts` (`MakeKeyId` in
`constants.go`): the key identifier is the two nonce strings joined by a
single space. -/
def makeKeyId (initialNonce sessionNonce : String) : String :=
  initialNonce ++ " " ++ sessionNonce

/-! ## The key-derivation core

Modelled from the spec: the `KeyDeriver` implementation lives in the
external SDKs (only its tests and the bug report quoting it are in this
repository).  The curve adapter is external and opaque; the spec fixes
only that derivation happens in the cyclic group of prime order `n`
generated by `G` (secp256k1 has cofactor 1, so every point is in that
subgroup).  We therefore represent a curve point by its discrete
logarithm: `Point := Nat`, where the point with representative `p` is
`(p mod n)·G`; `0` is the identity/infinity point, point addition is
addition of logarithms mod `n`, and scalar multiplication of `G` by `s`
is the point with logarithm `s mod n`. -/

/-- The order `n` of the secp256k1 group (a required externally-visible
constant of the spec). -/
def n : Nat :=
  0xFFFFFFFFFFFFFFFFFFFFFFFFFFFFFFFEBAAEDCE6AF48A03BBFD25E8CD0364141

/-- A curve scalar: an integer, understood modulo the group order `n`. -/
abbrev Scalar := Nat

/-- A curve point, represented by its discrete logarithm with respect to
the generator `G`, reduced modulo `n`; `0` is the identity point. -/
abbrev Point := Nat

/-- The public point `d·G` of a private scalar `d` (scalar multiplication
of the generator). -/
def pubOf (d : Scalar) : Point := d % n

/-- Point addition: addition of discrete logarithms modulo `n`. -/
def pointAdd (p q : Point) : Point := (p + q) % n

/-- Scalar multiplication of the generator `G` by `s`. -/
def smulG (s : Scalar) : Point := s % n

/-- Modelled from the spec: the designated fixed "anyone" base point
(the SDKs use the public key of the private scalar 1, i.e. `G` itself,
whose discrete logarithm is 1). -/
def anyoneBase : Point := 1

/-- Modelled from the spec (§3): a root identity holds a private scalar
`d`; its public point is `pubOf d = d·G`. -/
structure RootIdentity where
  privateScalar : Scalar
deriving DecidableEq

/-- Modelled from the spec (§3): a protocol descriptor is a security
level together with a protocol name. -/
structure Protocol where
  securityLevel : Nat
  protocolName : String
deriving DecidableEq

/-- Modelled from the spec (§3): a counterparty reference is `Self`,
`Anyone`, or `OtherParty(publicPoint)`. -/
inductive Counterparty where
  | self
  | anyone
  | other (pub : Point)
deriving DecidableEq

/-- Modelled from the spec (§7): the error taxonomy of the derivation
core. -/
inductive DerivError where
  | invalidProtocolDescriptor
  | invalidKeyID
  | invalidReferencePoint
  | degenerateScalar
  | invalidCounterparty
  | invalidCounterpartyForPrivateDerivation
  | derivationFailed
  | invalidNonceLength
  | invalidEncoding
deriving DecidableEq

/-- Modelled from the spec (§4.1): the implementation-fixed maximum
length of a protocol name. -/
def maxProtocolNameLength : Nat := 400

/-- Modelled from the spec (§4.1): `buildInvoiceNumber` produces the
canonical deterministic string token of a `(protocol, keyID)` pair, in
the BRC-43 convention `"<securityLevel>-<protocolName>-<keyID>"`; an
empty or over-long protocol name fails with `InvalidProtocolDescriptor`
and an empty key id fails with `InvalidKeyID`. -/
def buildInvoiceNumber (prot : Protocol) (keyID : String) :
    Except DerivError String :=
  if prot.protocolName = "" ∨ prot.protocolName.length > maxProtocolNameLength then
    .error .invalidProtocolDescriptor
  else if keyID = "" then
    .error .invalidKeyID
  else
    .ok (toString prot.securityLevel ++ "-" ++ prot.protocolName ++ "-" ++ keyID)

/-- The opaque HMAC primitive of §4.2, abstracted: it maps the invoice
number and the (domain-separated encoding of the) reference point to a
raw integer, which the branch-scalar deriver reduces modulo `n`. -/
abbrev HmacFn := String → Point → Nat

/-- Modelled from the spec (§4.2): `deriveBranchScalar` reduces the HMAC
output modulo `n`; the identity reference point fails with
`InvalidReferencePoint`, and a zero reduction fails with
`DegenerateScalar` instead of silently proceeding. -/
def deriveBranchScalar (hmac : HmacFn) (invoiceNumber : String)
    (referencePoint : Point) : Except DerivError Scalar :=
  if referencePoint % n = 0 then .error .invalidReferencePoint
  else
    let s := hmac invoiceNumber referencePoint % n
    if s = 0 then .error .degenerateScalar else .ok s

/-- Modelled from the spec (§4.3): the reference point of a counterparty,
relative to a root identity — the counterparty's own public point for
`OtherParty`, the fixed "anyone" base point for `Anyone`, and the root's
own public point for `Self`. -/
def referencePoint (root : RootIdentity) : Counterparty → Point
  | .self => pubOf root.privateScalar
  | .anyone => anyoneBase
  | .other q => q % n

/-- Modelled from the spec (§4.3): derive a private key against a fixed
reference point — build the invoice number (propagating its `Invalid*`
failures), compute the branch scalar (its failure wrapped as
`DerivationFailed`), and return `(root.privateScalar + branchScalar) mod n`. -/
def deriveWithReference (hmac : HmacFn) (root : RootIdentity)
    (prot : Protocol) (keyID : String) (ref : Point) :
    Except DerivError Scalar :=
  match buildInvoiceNumber prot keyID with
  | .error e => .error e
  | .ok inv =>
    match deriveBranchScalar hmac inv ref with
    | .error _ => .error .derivationFailed
    | .ok delta => .ok ((root.privateScalar + delta) % n)

/-- Modelled from the spec (§4.3): `derivePrivateKey` is only valid for
`OtherParty` or `Anyone` counterparties (`Self` fails with
`InvalidCounterpartyForPrivateDerivation`); it resolves the reference
point and returns `(root.privateScalar + branchScalar) mod n`. -/
def derivePrivateKey (hmac : HmacFn) (root : RootIdentity)
    (prot : Protocol) (keyID : String) (cp : Counterparty) :
    Except DerivError Scalar :=
  match cp with
  | .self => .error .invalidCounterpartyForPrivateDerivation
  | .anyone => deriveWithReference hmac root prot keyID anyoneBase
  | .other q => deriveWithReference hmac root prot keyID (q % n)

/-- Modelled from the spec (§4.3): `derivePublicKey` keys the branch
scalar on the counterparty's reference point in both modes; with
`forSelf = true` the result is `root.publicPoint + branchScalar·G`, with
`forSelf = false` it is `counterparty.publicPoint + branchScalar·G`; the
combination `Self` with `forSelf = false` fails with
`InvalidCounterparty`. -/
def derivePublicKey (hmac : HmacFn) (root : RootIdentity)
    (prot : Protocol) (keyID : String) (cp : Counterparty)
    (forSelf : Bool) : Except DerivError Point :=
  match cp, forSelf with
  | .self, false => .error .invalidCounterparty
  | _, _ =>
    let ref := referencePoint root cp
    let base := if forSelf then pubOf root.privateScalar else ref
    match buildInvoiceNumber prot keyID with
    | .error e => .error e
    | .ok inv =>
      match deriveBranchScalar hmac inv ref with
      | .error _ => .error .derivationFailed
      | .ok delta => .ok (pointAdd base (smulG delta))

/-! ## Strict transport decoding and the handshake nonce assembler -/

/-- Modelled from the spec (§4.4): strict Base64 decoding of a transport
string (the semantics of Go's `base64.StdEncoding.DecodeString`): the
input must consist of groups of four alphabet characters, with padding
`=` only closing the final group; any other input is undecodable. -/
def base64DecodeStrict : List Char → Option (List Nat)
  | [] => some []
  | a :: b :: c :: d :: rest =>
    match base64CharValue a, base64CharValue b with
    | some va, some vb =>
      if c = '=' then
        if d = '=' ∧ rest = [] then some [va * 4 + vb / 16] else none
      else
        match base64CharValue c with
        | some vc =>
          if d = '=' then
            if rest = [] then
              some [va * 4 + vb / 16, (vb % 16) * 16 + vc / 4]
            else none
          else
            match base64CharValue d with
            | some vd =>
              match base64DecodeStrict rest with
              | some bs =>
                some ((va * 4 + vb / 16) :: ((vb % 16) * 16 + vc / 4)
                  :: ((vc % 4) * 64 + vd) :: bs)
              | none => none
            | none => none
        | none => none
    | _, _ => none
  | _ => none

/-- Modelled from the spec (§4.4): decode one transport-encoded nonce —
an undecodable string fails with `InvalidEncoding`, a decoded length
other than 32 bytes fails with `InvalidNonceLength`. -/
def decodeNonce (s : String) : Except DerivError (List Nat) :=
  match base64DecodeStrict s.data with
  | none => .error .invalidEncoding
  | some bs => if bs.length = 32 then .ok bs else .error .invalidNonceLength

/-- Modelled from the spec (§4.4): the signing-direction nonce assembly —
decode each nonce individually and concatenate
`rawBytes(initialNonce) ‖ rawBytes(sessionNonce)`. -/
def assembleSigningData (initialNonce sessionNonce : String) :
    Except DerivError (List Nat) :=
  match decodeNonce initialNonce with
  | .error e => .error e
  | .ok i =>
    match decodeNonce sessionNonce with
    | .error e => .error e
    | .ok s => .ok (i ++ s)

/-! ## Helper lemmas -/

/-- Splitting a character list at a separator absent from both prefixes
is unambiguous. -/
theorem append_space_cons_inj (sep : Char) :
    ∀ (as cs bs ds : List Char), sep ∉ as → sep ∉ cs →
      as ++ sep :: bs = cs ++ sep :: ds → as = cs ∧ bs = ds := by
  intro as
  induction as with
  | nil =>
    intro cs bs ds _ hc h
    cases cs with
    | nil => simpa using h
    | cons c cs2 =>
      simp only [List.nil_append, List.cons_append, List.cons.injEq] at h
      exact absurd (h.1 ▸ List.mem_cons_self c cs2) hc
  | cons a as2 ih =>
    intro cs bs ds ha hc h
    cases cs with
    | nil =>
      simp only [List.nil_append, List.cons_append, List.cons.injEq] at h
      exact absurd (h.1 ▸ List.mem_cons_self a as2) ha
    | cons c cs2 =>
      simp only [List.cons_append, List.cons.injEq] at h
      obtain ⟨rfl, h2⟩ := h
      have ha2 : sep ∉ as2 := fun m => ha (List.mem_cons_of_mem _ m)
      have hc2 : sep ∉ cs2 := fun m => hc (List.mem_cons_of_mem _ m)
      obtain ⟨h3, h4⟩ := ih cs2 bs ds ha2 hc2 h2
      exact ⟨by rw [h3], h4⟩

/-- The character list of `makeKeyId a b` is the characters of `a`, a
space, then the characters of `b`. -/
theorem makeKeyId_data (a b : String) :
    (makeKeyId a b).data = a.data ++ ' ' :: b.data := by
  show (a ++ " " ++ b).data = a.data ++ ' ' :: b.data
  rw [String.data_append, String.data_append, List.append_assoc]
  rfl

/-- Adding a branch scalar to a public point is the public point of the
scalar sum: `d·G + delta·G = ((d + delta) mod n)·G`. -/
theorem pointAdd_pubOf_smulG (d delta : Nat) :
    pointAdd (pubOf d) (smulG delta) = pubOf ((d + delta) % n) := by
  unfold pointAdd pubOf smulG
  rw [Nat.mod_mod_of_dvd _ dvd_rfl]
  exact (Nat.add_mod d delta n).symm

/-- A nonce accepted by `decodeNonce` has exactly 32 bytes. -/
theorem decodeNonce_length (s : String) (bs : List Nat)
    (h : decodeNonce s = .ok bs) : bs.length = 32 := by
  unfold decodeNonce at h
  cases hdec : base64DecodeStrict s.data with
  | none => rw [hdec] at h; exact Except.noConfusion h
  | some l =>
    rw [hdec] at h
    have h2 : (if l.length = 32 then (Except.ok l : Except DerivError (List Nat))
        else .error .invalidNonceLength) = .ok bs := h
    by_cases hl : l.length = 32
    · rw [if_pos hl] at h2
      injection h2 with h3
      rw [← h3]; exact hl
    · rw [if_neg hl] at h2; exact Except.noConfusion h2

/-- Concrete HMAC stand-in used by the witnesses. -/
def testHmac : HmacFn := fun _ _ => 7

/-- Concrete root identity used by the witnesses. -/
def testRoot : RootIdentity := ⟨5⟩

/-- Concrete protocol descriptor used by the witnesses (security level 2,
protocol name from `PROTOCOL_ID`). -/
def testProtocol : Protocol := ⟨2, "auth message signature"⟩

/-! ## Claim theorems -/

/-- C2: for every pair of Base64-encoded 32-byte nonces, the signing data
is exactly the 64-byte concatenation of the decoded initial nonce followed
by the decoded session nonce, and the verification data is the reverse
concatenation; for the fixed test nonces they equal
`EXPECTED_SIG_DATA_SIGNING` and `EXPECTED_SIG_DATA_VERIFICATION`. -/
theorem signature_data_assembly_C2 :
    (∀ n1 n2 : String,
      correctSignatureDataPrep n1 n2 = base64ToBytes n1 ++ base64ToBytes n2) ∧
    (∀ n1 n2 : String, (base64ToBytes n1).length = 32 →
      (base64ToBytes n2).length = 32 →
      (correctSignatureDataPrep n1 n2).length = 64) ∧
    correctSignatureDataPrep INITIAL_NONCE_B64 SESSION_NONCE_B64 =
      EXPECTED_SIG_DATA_SIGNING ∧
    correctSignatureDataPrep SESSION_NONCE_B64 INITIAL_NONCE_B64 =
      EXPECTED_SIG_DATA_VERIFICATION := by
  refine ⟨fun _ _ => rfl, fun n1 n2 h1 h2 => ?_, by decide, by decide⟩
  simp [correctSignatureDataPrep, h1, h2]

/-- Witness for C2 at the fixed test nonces. -/
theorem signature_data_assembly_C2_witness :
    (correctSignatureDataPrep INITIAL_NONCE_B64 SESSION_NONCE_B64).length = 64 :=
  signature_data_assembly_C2.2.1 INITIAL_NONCE_B64 SESSION_NONCE_B64
    (by decide) (by decide)

/-- C3: the encoding is not concatenation-homomorphic: for the fixed test
pair, decoding the concatenation of the two Base64 strings as a single
value (the historical buggy path) differs from decode-then-concatenate —
the former has 32 bytes, the latter 64. -/
theorem encoding_not_homomorphic_C3 :
    buggyBase64ToBytes (INITIAL_NONCE_B64 ++ SESSION_NONCE_B64) ≠
      base64ToBytes INITIAL_NONCE_B64 ++ base64ToBytes SESSION_NONCE_B64 ∧
    (buggyBase64ToBytes (INITIAL_NONCE_B64 ++ SESSION_NONCE_B64)).length = 32 ∧
    (base64ToBytes INITIAL_NONCE_B64 ++ base64ToBytes SESSION_NONCE_B64).length
      = 64 := by
  refine ⟨by decide, by decide, by decide⟩

/-- C4: `makeKeyId` returns the textual concatenation of the initial
nonce, a single space, and the session nonce, and on the fixed test
nonces equals the expected literal string. -/
theorem key_id_format_C4 :
    (∀ a b : String, makeKeyId a b = a ++ " " ++ b) ∧
    makeKeyId INITIAL_NONCE_B64 SESSION_NONCE_B64 =
      "QUFBQUFBQUFBQUFBQUFBQUFBQUFBQUFBQUFBQUFBQUE= QkJCQkJCQkJCQkJCQkJCQkJCQkJCQkJCQkJCQkJCQkI=" :=
  ⟨fun _ _ => rfl, by decide⟩

/-- C9: the Base64 decodings of the fixed nonce strings are exactly the
fixed 32-byte arrays, and the expected signing/verification data are
exactly their two concatenations. -/
theorem constants_consistent_C9 :
    base64ToBytes INITIAL_NONCE_B64 = INITIAL_NONCE_BYTES ∧
    base64ToBytes SESSION_NONCE_B64 = SESSION_NONCE_BYTES ∧
    INITIAL_NONCE_BYTES.length = 32 ∧
    SESSION_NONCE_BYTES.length = 32 ∧
    EXPECTED_SIG_DATA_SIGNING = INITIAL_NONCE_BYTES ++ SESSION_NONCE_BYTES ∧
    EXPECTED_SIG_DATA_VERIFICATION = SESSION_NONCE_BYTES ++ INITIAL_NONCE_BYTES
    := by decide

/-- C10: `makeKeyId` is injective on pairs of space-free strings: if none
of the four strings contains a space and the key identifiers coincide,
the nonce pairs coincide. -/
theorem make_key_id_injective_C10 (a b c d : String)
    (ha : ' ' ∉ a.data) (_hb : ' ' ∉ b.data)
    (hc : ' ' ∉ c.data) (_hd : ' ' ∉ d.data)
    (h : makeKeyId a b = makeKeyId c d) : a = c ∧ b = d := by
  have hdata : (makeKeyId a b).data = (makeKeyId c d).data := by rw [h]
  rw [makeKeyId_data, makeKeyId_data] at hdata
  obtain ⟨h1, h2⟩ := append_space_cons_inj ' ' a.data c.data b.data d.data
    ha hc hdata
  exact ⟨String.ext h1, String.ext h2⟩

/-- Witness for C10 at the fixed test nonces. -/
theorem make_key_id_injective_C10_witness :
    INITIAL_NONCE_B64 = INITIAL_NONCE_B64 ∧ SESSION_NONCE_B64 = SESSION_NONCE_B64 :=
  make_key_id_injective_C10 INITIAL_NONCE_B64 SESSION_NONCE_B64
    INITIAL_NONCE_B64 SESSION_NONCE_B64
    (by decide) (by decide) (by decide) (by decide) rfl

/-- C1: for every root identity and every `OtherParty(Q)` counterparty,
with any protocol descriptor and key identifier,
`derivePublicKey(..., forSelf = true)` equals the public point of
`derivePrivateKey(...)` — including agreement of the two on every failure
path. -/
theorem self_consistency_C1 (hmac : HmacFn) (root : RootIdentity)
    (prot : Protocol) (keyID : String) (q : Point) :
    derivePublicKey hmac root prot keyID (.other q) true =
      (derivePrivateKey hmac root prot keyID (.other q)).map pubOf := by
  show (match buildInvoiceNumber prot keyID with
    | .error e => (.error e : Except DerivError Point)
    | .ok inv =>
      match deriveBranchScalar hmac inv (q % n) with
      | .error _ => .error .derivationFailed
      | .ok delta =>
          .ok (pointAdd (pubOf root.privateScalar) (smulG delta))) =
    Except.map pubOf
      (match buildInvoiceNumber prot keyID with
      | .error e => .error e
      | .ok inv =>
        match deriveBranchScalar hmac inv (q % n) with
        | .error _ => .error .derivationFailed
        | .ok delta => .ok ((root.privateScalar + delta) % n))
  cases buildInvoiceNumber prot keyID with
  | error e => rfl
  | ok inv =>
    show (match deriveBranchScalar hmac inv (q % n) with
      | .error _ => (.error .derivationFailed : Except DerivError Point)
      | .ok delta =>
          .ok (pointAdd (pubOf root.privateScalar) (smulG delta))) =
      Except.map pubOf
        (match deriveBranchScalar hmac inv (q % n) with
        | .error _ => .error .derivationFailed
        | .ok delta => .ok ((root.privateScalar + delta) % n))
    cases deriveBranchScalar hmac inv (q % n) with
    | error e2 => rfl
    | ok delta =>
      show Except.ok (pointAdd (pubOf root.privateScalar) (smulG delta)) =
        Except.ok (pubOf ((root.privateScalar + delta) % n))
      rw [pointAdd_pubOf_smulG]

/-- C5: for every root identity, protocol descriptor, key identifier and
`OtherParty(Q)` counterparty, when the invoice number builds and the
branch scalar derivation from that invoice number and `Q` succeeds with
`delta`, `derivePrivateKey` returns exactly
`(root.privateScalar + delta) mod n`. -/
theorem private_key_formula_C5 (hmac : HmacFn) (root : RootIdentity)
    (prot : Protocol) (keyID : String) (q : Point) (inv : String)
    (delta : Scalar)
    (hinv : buildInvoiceNumber prot keyID = .ok inv)
    (hbr : deriveBranchScalar hmac inv (q % n) = .ok delta) :
    derivePrivateKey hmac root prot keyID (.other q) =
      .ok ((root.privateScalar + delta) % n) := by
  show deriveWithReference hmac root prot keyID (q % n) = _
  unfold deriveWithReference
  rw [hinv]
  show (match deriveBranchScalar hmac inv (q % n) with
    | .error _ => (.error .derivationFailed : Except DerivError Scalar)
    | .ok d2 => .ok ((root.privateScalar + d2) % n)) = _
  rw [hbr]

/-- Witness for C5 at a concrete root scalar, protocol, key id,
counterparty point and HMAC. -/
theorem private_key_formula_C5_witness :
    derivePrivateKey testHmac testRoot testProtocol "k" (.other 2) =
      .ok ((5 + 7) % n) :=
  private_key_formula_C5 testHmac testRoot testProtocol "k" 2
    "2-auth message signature-k" 7 rfl rfl

/-- C6: for a non-trivial `OtherParty(Q)` counterparty (the point `Q`
distinct from the root's own public point), the two successfully derived
public keys for `forSelf = true` and `forSelf = false` are distinct. -/
theorem directional_distinctness_C6 (hmac : HmacFn) (root : RootIdentity)
    (prot : Protocol) (keyID : String) (q : Point) (p1 p2 : Point)
    (hne : q % n ≠ root.privateScalar % n)
    (h1 : derivePublicKey hmac root prot keyID (.other q) true = .ok p1)
    (h2 : derivePublicKey hmac root prot keyID (.other q) false = .ok p2) :
    p1 ≠ p2 := by
  have h1a : (match buildInvoiceNumber prot keyID with
    | .error e => (.error e : Except DerivError Point)
    | .ok inv =>
      match deriveBranchScalar hmac inv (q % n) with
      | .error _ => .error .derivationFailed
      | .ok delta =>
          .ok (pointAdd (pubOf root.privateScalar) (smulG delta))) = .ok p1 := h1
  have h2a : (match buildInvoiceNumber prot keyID with
    | .error e => (.error e : Except DerivError Point)
    | .ok inv =>
      match deriveBranchScalar hmac inv (q % n) with
      | .error _ => .error .derivationFailed
      | .ok delta => .ok (pointAdd (q % n) (smulG delta))) = .ok p2 := h2
  clear h1 h2
  cases hinv : buildInvoiceNumber prot keyID with
  | error e => rw [hinv] at h1a; exact Except.noConfusion h1a
  | ok inv =>
    rw [hinv] at h1a h2a
    have h1b : (match deriveBranchScalar hmac inv (q % n) with
      | .error _ => (.error .derivationFailed : Except DerivError Point)
      | .ok delta =>
          .ok (pointAdd (pubOf root.privateScalar) (smulG delta))) = .ok p1 := h1a
    have h2b : (match deriveBranchScalar hmac inv (q % n) with
      | .error _ => (.error .derivationFailed : Except DerivError Point)
      | .ok delta => .ok (pointAdd (q % n) (smulG delta))) = .ok p2 := h2a
    cases hbr : deriveBranchScalar hmac inv (q % n) with
    | error e2 => rw [hbr] at h1b; exact Except.noConfusion h1b
    | ok delta =>
      rw [hbr] at h1b h2b
      have h1c : Except.ok (pointAdd (pubOf root.privateScalar) (smulG delta)) =
        Except.ok p1 := h1b
      have h2c : Except.ok (pointAdd (q % n) (smulG delta)) =
        Except.ok p2 := h2b
      injection h1c with h1p
      injection h2c with h2p
      rw [← h1p, ← h2p]
      unfold pointAdd pubOf smulG
      intro heq
      have hmod : root.privateScalar % n ≡ q % n [MOD n] :=
        Nat.ModEq.add_right_cancel' (delta % n) heq
      have hmm : root.privateScalar % n % n = q % n % n := hmod
      rw [Nat.mod_mod_of_dvd _ dvd_rfl, Nat.mod_mod_of_dvd _ dvd_rfl] at hmm
      exact hne hmm.symm

/-- Witness for C6 at a concrete configuration: root scalar 5,
counterparty point of discrete logarithm 1 (the generator, the fixed test
counterparty key), HMAC constantly 7. -/
theorem directional_distinctness_C6_witness : (12 : Nat) ≠ 8 :=
  directional_distinctness_C6 testHmac testRoot testProtocol "k" 1 12 8
    (by decide) rfl rfl

/-- C7: `derivePrivateKey` and `derivePublicKey` are pure functions of
their explicit inputs: two invocations on component-wise equal input
tuples return equal results. -/
theorem determinism_C7 (hmac : HmacFn)
    (r1 r2 : RootIdentity) (p1 p2 : Protocol) (k1 k2 : String)
    (c1 c2 : Counterparty) (f1 f2 : Bool)
    (hr : r1 = r2) (hp : p1 = p2) (hk : k1 = k2) (hc : c1 = c2)
    (hf : f1 = f2) :
    derivePrivateKey hmac r1 p1 k1 c1 = derivePrivateKey hmac r2 p2 k2 c2 ∧
    derivePublicKey hmac r1 p1 k1 c1 f1 = derivePublicKey hmac r2 p2 k2 c2 f2
    := by
  subst hr hp hk hc hf
  exact ⟨rfl, rfl⟩

/-- Witness for C7 at a concrete input tuple. -/
theorem determinism_C7_witness :
    derivePrivateKey testHmac testRoot testProtocol "k" (.other 2) =
      derivePrivateKey testHmac testRoot testProtocol "k" (.other 2) ∧
    derivePublicKey testHmac testRoot testProtocol "k" (.other 2) true =
      derivePublicKey testHmac testRoot testProtocol "k" (.other 2) true :=
  determinism_C7 testHmac testRoot testRoot testProtocol testProtocol
    "k" "k" (.other 2) (.other 2) true true rfl rfl rfl rfl rfl

/-- C8: no silent defaults on error — an empty protocol name fails with
`InvalidProtocolDescriptor` (also through `derivePrivateKey`), an empty
key id fails with `InvalidKeyID`, an undecodable transport string fails
with `InvalidEncoding`, a successful branch scalar is never the zero
scalar, and successful nonce assembly always yields exactly 64 bytes. -/
theorem error_handling_C8 :
    (∀ (l : Nat) (keyID : String),
      buildInvoiceNumber ⟨l, ""⟩ keyID = .error .invalidProtocolDescriptor) ∧
    (∀ (l : Nat) (name : String), name ≠ "" →
      name.length ≤ maxProtocolNameLength →
      buildInvoiceNumber ⟨l, name⟩ "" = .error .invalidKeyID) ∧
    (∀ (hmac : HmacFn) (root : RootIdentity) (l : Nat) (keyID : String)
      (q : Point),
      derivePrivateKey hmac root ⟨l, ""⟩ keyID (.other q) =
        .error .invalidProtocolDescriptor) ∧
    (∀ (hmac : HmacFn) (inv : String) (p : Point) (s : Scalar),
      deriveBranchScalar hmac inv p = .ok s → s ≠ 0) ∧
    (∀ s1 s2 : String, base64DecodeStrict s1.data = none →
      assembleSigningData s1 s2 = .error .invalidEncoding) ∧
    (∀ (s1 s2 : String) (bs : List Nat),
      assembleSigningData s1 s2 = .ok bs → bs.length = 64) := by
  refine ⟨?_, ?_, ?_, ?_, ?_, ?_⟩
  · intro l keyID
    unfold buildInvoiceNumber
    rw [if_pos (Or.inl rfl)]
  · intro l name h1 h2
    unfold buildInvoiceNumber
    rw [if_neg ?_, if_pos rfl]
    rintro (h | h)
    · exact h1 h
    · exact Nat.not_lt.mpr h2 h
  · intro hmac root l keyID q
    unfold derivePrivateKey deriveWithReference buildInvoiceNumber
    rw [if_pos (Or.inl rfl)]
  · intro hmac inv p s h
    unfold deriveBranchScalar at h
    by_cases h0 : p % n = 0
    · rw [if_pos h0] at h; exact Except.noConfusion h
    · rw [if_neg h0] at h
      by_cases hz : hmac inv p % n = 0
      · rw [if_pos hz] at h; exact Except.noConfusion h
      · rw [if_neg hz] at h
        injection h with h2
        rw [← h2]; exact hz
  · intro s1 s2 h
    unfold assembleSigningData decodeNonce
    rw [h]
  · intro s1 s2 bs h
    unfold assembleSigningData at h
    cases hd1 : decodeNonce s1 with
    | error e => rw [hd1] at h; exact Except.noConfusion h
    | ok i =>
      rw [hd1] at h
      cases hd2 : decodeNonce s2 with
      | error e => rw [hd2] at h; exact Except.noConfusion h
      | ok s =>
        rw [hd2] at h
        injection h with h2
        rw [← h2, List.length_append, decodeNonce_length s1 i hd1,
          decodeNonce_length s2 s hd2]

/-- Witness for C8: each failure path exercised at a concrete input, the
branch-scalar non-degeneracy at a concrete HMAC, and the 64-byte output
at the fixed test nonces. -/
theorem error_handling_C8_witness :
    buildInvoiceNumber ⟨2, ""⟩ "k" = .error .invalidProtocolDescriptor ∧
    buildInvoiceNumber ⟨2, "p"⟩ "" = .error .invalidKeyID ∧
    derivePrivateKey testHmac testRoot ⟨2, ""⟩ "k" (.other 2) =
      .error .invalidProtocolDescriptor ∧
    (7 : Nat) ≠ 0 ∧
    assembleSigningData "!!!!" SESSION_NONCE_B64 = .error .invalidEncoding ∧
    EXPECTED_SIG_DATA_SIGNING.length = 64 :=
  ⟨error_handling_C8.1 2 "k",
   error_handling_C8.2.1 2 "p" (by decide) (by decide),
   error_handling_C8.2.2.1 testHmac testRoot 2 "k" 2,
   error_handling_C8.2.2.2.1 testHmac "i" 2 7 rfl,
   error_handling_C8.2.2.2.2.1 "!!!!" SESSION_NONCE_B64 rfl,
   error_handling_C8.2.2.2.2.2 INITIAL_NONCE_B64 SESSION_NONCE_B64
     EXPECTED_SIG_DATA_SIGNING rfl⟩

end BRC104
